import Mathlib

/-!
Verification of the SudoSOS `BalanceService` (balance ledger cache).

The definitions below are a shallow embedding of the SQL queries issued by
`BalanceService.updateBalances`, `BalanceService.clearBalanceCache`,
`BalanceService.getBalances` and `BalanceService.getBalance`.  Tables are
lists of rows; the `balance` cache table, whose key `user_id` is unique, is
a map `Nat → Option BalanceEntry`; monetary amounts are exact integers in
minor currency units (`Int`).
-/

namespace SudoSOS

/-- A row of the `transaction` table; `fromId` is the paying user. -/
structure Transaction where
  id : Nat
  fromId : Nat
deriving DecidableEq

/-- A row of `sub_transaction`; `toId` is the user owed for the rows below it. -/
structure SubTransaction where
  id : Nat
  transactionId : Nat
  toId : Nat
deriving DecidableEq

/-- A row of `sub_transaction_row`; `amount` is the quantity bought and the
pair `(productRevision, productProduct)` references the price-locked
`product_revision` row. -/
structure SubTransactionRow where
  subTransactionId : Nat
  amount : Int
  productRevision : Nat
  productProduct : Nat
deriving DecidableEq

/-- A row of `product_revision`; `priceInclVat` is the locked unit price. -/
structure ProductRevision where
  revision : Nat
  productId : Nat
  priceInclVat : Int
deriving DecidableEq

/-- A row of `transfer`; either side may be NULL (external deposit/withdrawal). -/
structure Transfer where
  id : Nat
  fromId : Option Nat
  toId : Option Nat
  amount : Int
deriving DecidableEq

/-- A row of the `balance` cache table (minus its key `user_id`). -/
structure BalanceEntry where
  amount : Int
  lastTransaction : Nat
  lastTransfer : Nat
deriving DecidableEq

/-- The shape produced by `asBalanceResponse`: the checkpoint fields are NULL
when the user has no `balance` row (`b5` is a left join). -/
structure BalanceResponse where
  id : Nat
  amount : Int
  lastTransactionId : Option Nat
  lastTransferId : Option Nat
deriving DecidableEq

/-- The database state seen by `BalanceService`. -/
structure DBState where
  users : List Nat
  transactions : List Transaction
  subTransactions : List SubTransaction
  subTransactionRows : List SubTransactionRow
  productRevisions : List ProductRevision
  transfers : List Transfer
  balance : Nat → Option BalanceEntry

/-- `select max(transaction) from (select max(id), 0 from transaction union ...)`:
the maximum transaction id, or 0 for an empty table (SQL `max` ignores the
NULL produced by the empty inner select, leaving the 0 of the union row). -/
def txMax (db : DBState) : Nat := (db.transactions.map Transaction.id).foldr max 0

/-- Maximum transfer id, or 0 for an empty table. -/
def tfMax (db : DBState) : Nat := (db.transfers.map Transfer.id).foldr max 0

/-- The optional `IN ( ids )` restriction appearing in the filtered queries. -/
def filt : Option (List Nat) → Nat → Bool
  | none, _ => true
  | some l, i => decide (i ∈ l)

/-- `sum(amount) ... group by id` evaluated at one group key: the sum of the
second components of the pairs whose first component is `u`. -/
def sumFor (l : List (Nat × Int)) (u : Nat) : Int :=
  (l.filter fun p => p.fst == u).foldr (fun p acc => p.snd + acc) 0

/-- A `select ... from l where c` block producing attributed amounts. -/
def bindIf {α : Type} (l : List α) (c : α → Bool) (g : α → List (Nat × Int)) :
    List (Nat × Int) :=
  l.flatMap fun a => if c a then g a else []

/-- The join `transaction × sub_transaction × sub_transaction_row ×
product_revision` for one transaction `t`, producing
`(t.fromId, str.amount * pr.priceInclVat * -1)` per joined row. -/
def payerRowsFor (db : DBState) (t : Transaction) : List (Nat × Int) :=
  (db.subTransactions.filter fun st => st.transactionId == t.id).flatMap fun st =>
    (db.subTransactionRows.filter fun r => r.subTransactionId == st.id).flatMap fun r =>
      (db.productRevisions.filter fun pr =>
          pr.revision == r.productRevision && pr.productId == r.productProduct).map fun pr =>
        (t.fromId, -(r.amount * pr.priceInclVat))

/-- The join `sub_transaction × sub_transaction_row × product_revision` for one
sub-transaction, producing `(st.toId, str.amount * pr.priceInclVat)` per row. -/
def recipientRowsFor (db : DBState) (st : SubTransaction) : List (Nat × Int) :=
  (db.subTransactionRows.filter fun r => r.subTransactionId == st.id).flatMap fun r =>
    (db.productRevisions.filter fun pr =>
        pr.revision == r.productRevision && pr.productId == r.productProduct).map fun pr =>
      (st.toId, r.amount * pr.priceInclVat)

/-- `select t2.fromId, amount*-1 from transfer t2`: nothing for a NULL source. -/
def transferFromRow (tr : Transfer) : List (Nat × Int) :=
  match tr.fromId with
  | some v => [(v, -tr.amount)]
  | none => []

/-- `select t3.toId, amount from transfer t3`: nothing for a NULL destination. -/
def transferToRow (tr : Transfer) : List (Nat × Int) :=
  match tr.toId with
  | some v => [(v, tr.amount)]
  | none => []

/-- Refresh union branch 1: payer deltas `where t.id <= tmax` (and the
optional `t.fromId in (ids)`). -/
def payerDeltas (db : DBState) (tmax : Nat) (f : Nat → Bool) : List (Nat × Int) :=
  bindIf db.transactions (fun t => decide (t.id ≤ tmax) && f t.fromId) (payerRowsFor db)

/-- Refresh union branch 2: recipient deltas `where st2.transactionId <= tmax`
(and the optional `st2.toId in (ids)`). -/
def recipientDeltas (db : DBState) (tmax : Nat) (f : Nat → Bool) : List (Nat × Int) :=
  bindIf db.subTransactions
    (fun st => decide (st.transactionId ≤ tmax) && f st.toId) (recipientRowsFor db)

/-- Refresh union branch 3: transfer source deltas `where t2.id <= fmax and
fromId is not NULL` (the filtered variant's `fromId in (ids)` likewise
excludes NULL). -/
def transferFromDeltas (db : DBState) (fmax : Nat) (f : Nat → Bool) : List (Nat × Int) :=
  bindIf db.transfers
    (fun tr => decide (tr.id ≤ fmax) && tr.fromId.elim false f) transferFromRow

/-- Refresh union branch 4: transfer destination deltas. -/
def transferToDeltas (db : DBState) (fmax : Nat) (f : Nat → Bool) : List (Nat × Int) :=
  bindIf db.transfers
    (fun tr => decide (tr.id ≤ fmax) && tr.toId.elim false f) transferToRow

/-- The full `UNION ALL` aggregated by `updateBalances`, with the checkpoints
`txMax`/`tfMax` read before the scan. -/
def refreshDeltas (db : DBState) (f : Nat → Bool) : List (Nat × Int) :=
  payerDeltas db (txMax db) f ++ recipientDeltas db (txMax db) f
    ++ transferFromDeltas db (tfMax db) f ++ transferToDeltas db (tfMax db) f

/-- `BalanceService.updateBalances`: `REPLACE INTO balance select id,
sum(amount), transactionMax, transferMax from ( ... ) group by moneys.id`.
A group (and hence a replaced row) exists exactly for the subjects occurring
in the union; rows of other subjects are left untouched. -/
def updateBalances (db : DBState) (ids : Option (List Nat)) : DBState :=
  { db with balance := fun u =>
      if decide (u ∈ (refreshDeltas db (filt ids)).map Prod.fst) then
        some ⟨sumFor (refreshDeltas db (filt ids)) u, txMax db, tfMax db⟩
      else db.balance u }

/-- `BalanceService.clearBalanceCache`: delete the given rows, or all rows. -/
def clearBalanceCache (db : DBState) (ids : Option (List Nat)) : DBState :=
  match ids with
  | some l => { db with balance := fun u => if decide (u ∈ l) then none else db.balance u }
  | none => { db with balance := fun _ => none }

/-- `COALESCE(b1.lastTransaction, 0)` for the row of user `u`. -/
def chkTx (db : DBState) (u : Nat) : Nat :=
  match db.balance u with
  | some b => b.lastTransaction
  | none => 0

/-- `COALESCE(b3.lastTransfer, 0)` for the row of user `u`. -/
def chkTf (db : DBState) (u : Nat) : Nat :=
  match db.balance u with
  | some b => b.lastTransfer
  | none => 0

/-- Read-path union branch 1: payer deltas
`where t.id > COALESCE(b1.lastTransaction, 0)` (`b1` joined on `t.fromId`). -/
def pendingPayerDeltas (db : DBState) (f : Nat → Bool) : List (Nat × Int) :=
  bindIf db.transactions
    (fun t => decide (chkTx db t.fromId < t.id) && f t.fromId) (payerRowsFor db)

/-- Read-path union branch 2: recipient deltas
`where st2.transactionId > COALESCE(b2.lastTransaction, 0)` (`b2` on `st2.toId`). -/
def pendingRecipientDeltas (db : DBState) (f : Nat → Bool) : List (Nat × Int) :=
  bindIf db.subTransactions
    (fun st => decide (chkTx db st.toId < st.transactionId) && f st.toId) (recipientRowsFor db)

/-- Read-path union branch 3: transfer source deltas
`where t2.id > COALESCE(b3.lastTransfer, 0)`.  A NULL `fromId` row joins no
user downstream, so it is never attributed to anyone. -/
def pendingTransferFromDeltas (db : DBState) (f : Nat → Bool) : List (Nat × Int) :=
  bindIf db.transfers
    (fun tr => tr.fromId.elim false fun v => decide (chkTf db v < tr.id) && f v)
    transferFromRow

/-- Read-path union branch 4: transfer destination deltas. -/
def pendingTransferToDeltas (db : DBState) (f : Nat → Bool) : List (Nat × Int) :=
  bindIf db.transfers
    (fun tr => tr.toId.elim false fun v => decide (chkTf db v < tr.id) && f v)
    transferToRow

/-- The pending-delta union scanned by `getBalances`. -/
def pendingDeltas (db : DBState) (f : Nat → Bool) : List (Nat × Int) :=
  pendingPayerDeltas db f ++ pendingRecipientDeltas db f
    ++ pendingTransferFromDeltas db f ++ pendingTransferToDeltas db f

/-- `COALESCE(b5.amount, 0)`. -/
def cachedAmount (db : DBState) (u : Nat) : Int :=
  match db.balance u with
  | some b => b.amount
  | none => 0

/-- One output row of the `getBalances` query for user `u`:
`moneys2.totalValue + COALESCE(b5.amount, 0)` plus the left-joined `b5`
checkpoint columns. -/
def respFor (db : DBState) (ids : Option (List Nat)) (u : Nat) : BalanceResponse :=
  { id := u
    amount := sumFor (pendingDeltas db (filt ids)) u + cachedAmount db u
    lastTransactionId := (db.balance u).map BalanceEntry.lastTransaction
    lastTransferId := (db.balance u).map BalanceEntry.lastTransfer }

/-- The result set of the `getBalances` query: rooted in `user` (one row per
selected user), `group by user.id`. -/
def getBalancesRows (db : DBState) (ids : Option (List Nat)) : List BalanceResponse :=
  (db.users.filter fun x => filt ids x).map (respFor db ids)

/-- `BalanceService.getBalances`: the guard
`if (balances.length === 0 && balances[0].amount === undefined)` dereferences
`balances[0]` whenever the result set is empty, so an empty result throws a
TypeError; a nonempty result short-circuits the conjunction and is returned. -/
def getBalances (db : DBState) (ids : Option (List Nat)) :
    Except String (List BalanceResponse) :=
  if (getBalancesRows db ids).isEmpty then
    Except.error "TypeError: Cannot read property amount of undefined"
  else Except.ok (getBalancesRows db ids)

/-- `BalanceService.getBalance`: `(await this.getBalances([id]))[0]`. -/
def getBalance (db : DBState) (u : Nat) : Except String BalanceResponse :=
  (getBalances db (some [u])).bind fun l =>
    match l.head? with
    | some r => Except.ok r
    | none => Except.error "undefined"

/-- The exact signed sum of the transaction deltas of subject `u` whose
transaction id is at most `c` (payer rows by `t.id`, recipient rows by
`st.transactionId`). -/
def txDeltaSumUpTo (db : DBState) (u : Nat) (c : Nat) : Int :=
  sumFor (bindIf db.transactions (fun t => decide (t.id ≤ c)) (payerRowsFor db)
    ++ bindIf db.subTransactions (fun st => decide (st.transactionId ≤ c))
        (recipientRowsFor db)) u

/-- The exact signed sum of the transaction deltas of subject `u` whose
transaction id is strictly greater than `c`. -/
def txDeltaSumAfter (db : DBState) (u : Nat) (c : Nat) : Int :=
  sumFor (bindIf db.transactions (fun t => decide (c < t.id)) (payerRowsFor db)
    ++ bindIf db.subTransactions (fun st => decide (c < st.transactionId))
        (recipientRowsFor db)) u

/-- The exact signed sum of the transfer deltas of subject `u` with id ≤ `c`. -/
def tfDeltaSumUpTo (db : DBState) (u : Nat) (c : Nat) : Int :=
  sumFor (bindIf db.transfers (fun tr => decide (tr.id ≤ c)) transferFromRow
    ++ bindIf db.transfers (fun tr => decide (tr.id ≤ c)) transferToRow) u

/-- The exact signed sum of the transfer deltas of subject `u` with id > `c`. -/
def tfDeltaSumAfter (db : DBState) (u : Nat) (c : Nat) : Int :=
  sumFor (bindIf db.transfers (fun tr => decide (c < tr.id)) transferFromRow
    ++ bindIf db.transfers (fun tr => decide (c < tr.id)) transferToRow) u

/-- Ledger ids are auto-increment keys starting at 1. -/
def wfLedgerIds (db : DBState) : Prop :=
  (∀ t ∈ db.transactions, 1 ≤ t.id)
  ∧ (∀ st ∈ db.subTransactions, 1 ≤ st.transactionId)
  ∧ (∀ tr ∈ db.transfers, 1 ≤ tr.id)

/-- Invariant I2 of the spec: every cached row holds exactly the sum of its
subject's deltas up to its checkpoints.  It holds for every row `refresh`
writes and is assumed of pre-existing rows. -/
def cacheValid (db : DBState) : Prop :=
  ∀ u b, db.balance u = some b →
    b.amount = txDeltaSumUpTo db u b.lastTransaction + tfDeltaSumUpTo db u b.lastTransfer

/-! ### Concrete states used to instantiate the theorems -/

/-- One user, empty ledgers, empty cache. -/
def dbEmptyUser : DBState := ⟨[7], [], [], [], [], [], fun _ => none⟩

/-- User 1 buys 3 units at 150 from a sale owned by user 2 and transfers 100
to user 2. -/
def dbSale : DBState :=
  ⟨[1, 2], [⟨1, 1⟩], [⟨1, 1, 2⟩], [⟨1, 3, 1, 1⟩], [⟨1, 1, 150⟩],
    [⟨1, some 1, some 2, 100⟩], fun _ => none⟩

/-- User 1 buys 3 units at 150 from user 2 and receives a transfer of 1000;
its cached row ⟨550, 1, 1⟩ is exactly the sum of its deltas up to (1, 1). -/
def dbCacheW : DBState :=
  ⟨[1, 2], [⟨1, 1⟩], [⟨1, 1, 2⟩], [⟨1, 3, 1, 1⟩], [⟨1, 1, 150⟩],
    [⟨1, some 2, some 1, 1000⟩],
    fun v => if v = 1 then some ⟨550, 1, 1⟩ else none⟩

/-- Ledger state with a single transfer of 5 out of user 1. -/
def dbTwoA : DBState := ⟨[1], [], [], [], [], [⟨1, some 1, none, 5⟩], fun _ => none⟩

/-- `dbTwoA` after one more transfer (id 2) of 7 out of user 1. -/
def dbTwoB : DBState :=
  ⟨[1], [], [], [], [], [⟨1, some 1, none, 5⟩, ⟨2, some 1, none, 7⟩], fun _ => none⟩

/-- User 5 exists but has no ledger history at all. -/
def dbReq : DBState := ⟨[5], [], [], [], [], [], fun _ => none⟩

/-- User 3 received a 500 deposit from outside (transfer with NULL source). -/
def dbReqW : DBState := ⟨[3], [], [], [], [], [⟨1, none, some 3, 500⟩], fun _ => none⟩

/-- A single user with id 1. -/
def dbOneUser : DBState := ⟨[1], [], [], [], [], [], fun _ => none⟩

/-! ### Helper lemmas -/

lemma sumFor_nil (u : Nat) : sumFor [] u = 0 := rfl

lemma sumFor_cons (p : Nat × Int) (l : List (Nat × Int)) (u : Nat) :
    sumFor (p :: l) u = (if p.fst == u then p.snd else 0) + sumFor l u := by
  unfold sumFor
  rw [List.filter_cons]
  by_cases h : (p.fst == u) = true
  · rw [if_pos h, if_pos h]
    rfl
  · rw [if_neg h, if_neg h, Int.zero_add]

lemma sumFor_append (l₁ l₂ : List (Nat × Int)) (u : Nat) :
    sumFor (l₁ ++ l₂) u = sumFor l₁ u + sumFor l₂ u := by
  induction l₁ with
  | nil => rw [List.nil_append, sumFor_nil, Int.zero_add]
  | cons p t ih => rw [List.cons_append, sumFor_cons, sumFor_cons, ih, Int.add_assoc]

lemma sumFor_eq_zero (l : List (Nat × Int)) (u : Nat) (h : ∀ p ∈ l, p.fst ≠ u) :
    sumFor l u = 0 := by
  induction l with
  | nil => rfl
  | cons p t ih =>
    rw [sumFor_cons, ih fun q hq => h q (List.mem_cons_of_mem p hq)]
    have hp : (p.fst == u) = false := by
      simp only [beq_eq_false_iff_ne, ne_eq]
      exact h p (List.mem_cons_self p t)
    rw [hp]
    rfl

lemma bindIf_cons {α : Type} (a : α) (l : List α) (c : α → Bool) (g : α → List (Nat × Int)) :
    bindIf (a :: l) c g = (if c a then g a else []) ++ bindIf l c g := by
  unfold bindIf
  rw [List.flatMap_cons]

lemma mem_bindIf {α : Type} {l : List α} {c : α → Bool} {g : α → List (Nat × Int)}
    {p : Nat × Int} : p ∈ bindIf l c g ↔ ∃ a ∈ l, c a = true ∧ p ∈ g a := by
  unfold bindIf
  rw [List.mem_flatMap]
  constructor
  · rintro ⟨a, ha, hp⟩
    by_cases hc : c a = true
    · rw [if_pos hc] at hp
      exact ⟨a, ha, hc, hp⟩
    · rw [if_neg hc] at hp
      cases hp
  · rintro ⟨a, ha, hc, hp⟩
    exact ⟨a, ha, by rw [if_pos hc]; exact hp⟩

/-- Two `where` conditions that agree on every row that can contribute an
amount attributed to `u` give the same per-`u` aggregate. -/
lemma sumFor_bindIf_congr {α : Type} (l : List α) (g : α → List (Nat × Int))
    (c c' : α → Bool) (u : Nat)
    (h : ∀ a ∈ l, (∃ p ∈ g a, p.fst = u) → c a = c' a) :
    sumFor (bindIf l c g) u = sumFor (bindIf l c' g) u := by
  induction l with
  | nil => rfl
  | cons a t ih =>
    rw [bindIf_cons, bindIf_cons, sumFor_append, sumFor_append,
      ih fun b hb => h b (List.mem_cons_of_mem a hb)]
    by_cases hem : ∃ p ∈ g a, p.fst = u
    · rw [h a (List.mem_cons_self a t) hem]
    · push_neg at hem
      have h1 : sumFor (g a) u = 0 := sumFor_eq_zero _ _ hem
      have e1 : sumFor (if c a then g a else []) u = 0 := by
        by_cases hc : c a = true
        · rw [if_pos hc]; exact h1
        · rw [if_neg hc]; rfl
      have e2 : sumFor (if c' a then g a else []) u = 0 := by
        by_cases hc : c' a = true
        · rw [if_pos hc]; exact h1
        · rw [if_neg hc]; rfl
      rw [e1, e2]

/-- Splitting a `where` condition into two disjoint exhaustive conditions
splits the per-`u` aggregate. -/
lemma sumFor_bindIf_add {α : Type} (l : List α) (g : α → List (Nat × Int))
    (c c₁ c₂ : α → Bool) (u : Nat)
    (h : ∀ a ∈ l, c a = (c₁ a || c₂ a))
    (hx : ∀ a ∈ l, ¬(c₁ a = true ∧ c₂ a = true)) :
    sumFor (bindIf l c g) u = sumFor (bindIf l c₁ g) u + sumFor (bindIf l c₂ g) u := by
  induction l with
  | nil => rfl
  | cons a t ih =>
    rw [bindIf_cons, bindIf_cons, bindIf_cons, sumFor_append, sumFor_append, sumFor_append,
      ih (fun b hb => h b (List.mem_cons_of_mem a hb))
        (fun b hb => hx b (List.mem_cons_of_mem a hb))]
    have hca := h a (List.mem_cons_self a t)
    have key : sumFor (if c a then g a else []) u
        = sumFor (if c₁ a then g a else []) u + sumFor (if c₂ a then g a else []) u := by
      by_cases h1 : c₁ a = true <;> by_cases h2 : c₂ a = true
      · exact absurd ⟨h1, h2⟩ (hx a (List.mem_cons_self a t))
      · rw [if_pos h1, if_neg h2, if_pos (by rw [hca, h1, Bool.true_or]),
          sumFor_nil, Int.add_zero]
      · rw [if_neg h1, if_pos h2, if_pos (by rw [hca, h2, Bool.or_true]),
          sumFor_nil, Int.zero_add]
      · rw [if_neg h1, if_neg h2,
          if_neg (by rw [hca]; simp only [Bool.or_eq_true]; rintro (hh | hh)
                     · exact h1 hh
                     · exact h2 hh),
          sumFor_nil, Int.add_zero]
    rw [key, Int.add_assoc, Int.add_assoc, Int.add_left_comm (sumFor (bindIf t c₁ g) u)]

/-- Every amount emitted by the payer join of transaction `t` is attributed
to `t.fromId`. -/
lemma payerRowsFor_fst (db : DBState) (t : Transaction) :
    ∀ p ∈ payerRowsFor db t, p.fst = t.fromId := by
  intro p hp
  unfold payerRowsFor at hp
  rw [List.mem_flatMap] at hp
  obtain ⟨st, -, hp⟩ := hp
  rw [List.mem_flatMap] at hp
  obtain ⟨r, -, hp⟩ := hp
  rw [List.mem_map] at hp
  obtain ⟨pr, -, hp⟩ := hp
  rw [← hp]

/-- Every amount emitted by the recipient join of sub-transaction `st` is
attributed to `st.toId`. -/
lemma recipientRowsFor_fst (db : DBState) (st : SubTransaction) :
    ∀ p ∈ recipientRowsFor db st, p.fst = st.toId := by
  intro p hp
  unfold recipientRowsFor at hp
  rw [List.mem_flatMap] at hp
  obtain ⟨r, -, hp⟩ := hp
  rw [List.mem_map] at hp
  obtain ⟨pr, -, hp⟩ := hp
  rw [← hp]

lemma transferFromRow_fst (tr : Transfer) :
    ∀ p ∈ transferFromRow tr, tr.fromId = some p.fst := by
  intro p hp
  unfold transferFromRow at hp
  cases h : tr.fromId with
  | none => rw [h] at hp; cases hp
  | some v =>
    rw [h] at hp
    rcases List.mem_singleton.mp hp with rfl
    rfl

lemma transferToRow_fst (tr : Transfer) :
    ∀ p ∈ transferToRow tr, tr.toId = some p.fst := by
  intro p hp
  unfold transferToRow at hp
  cases h : tr.toId with
  | none => rw [h] at hp; cases hp
  | some v =>
    rw [h] at hp
    rcases List.mem_singleton.mp hp with rfl
    rfl

/-- The refresh union restricted to a filter that admits `u` attributes to `u`
exactly its transaction deltas with id ≤ `txMax` plus its transfer deltas
with id ≤ `tfMax`. -/
lemma refresh_sum_eq (db : DBState) (f : Nat → Bool) (u : Nat) (hf : f u = true) :
    sumFor (refreshDeltas db f) u
      = txDeltaSumUpTo db u (txMax db) + tfDeltaSumUpTo db u (tfMax db) := by
  have hp : sumFor (payerDeltas db (txMax db) f) u
      = sumFor (bindIf db.transactions (fun t => decide (t.id ≤ txMax db))
          (payerRowsFor db)) u := by
    apply sumFor_bindIf_congr
    intro t _ hex
    obtain ⟨p, hpm, hpu⟩ := hex
    have hfrom : t.fromId = u := (payerRowsFor_fst db t p hpm).symm.trans hpu
    rw [hfrom, hf, Bool.and_true]
  have hr : sumFor (recipientDeltas db (txMax db) f) u
      = sumFor (bindIf db.subTransactions (fun st => decide (st.transactionId ≤ txMax db))
          (recipientRowsFor db)) u := by
    apply sumFor_bindIf_congr
    intro st _ hex
    obtain ⟨p, hpm, hpu⟩ := hex
    have hto : st.toId = u := (recipientRowsFor_fst db st p hpm).symm.trans hpu
    rw [hto, hf, Bool.and_true]
  have htf : sumFor (transferFromDeltas db (tfMax db) f) u
      = sumFor (bindIf db.transfers (fun tr => decide (tr.id ≤ tfMax db))
          transferFromRow) u := by
    apply sumFor_bindIf_congr
    intro tr _ hex
    obtain ⟨p, hpm, hpu⟩ := hex
    have hfrom : tr.fromId = some u := hpu ▸ transferFromRow_fst tr p hpm
    rw [hfrom]
    show (decide (tr.id ≤ tfMax db) && f u) = decide (tr.id ≤ tfMax db)
    rw [hf, Bool.and_true]
  have htt : sumFor (transferToDeltas db (tfMax db) f) u
      = sumFor (bindIf db.transfers (fun tr => decide (tr.id ≤ tfMax db))
          transferToRow) u := by
    apply sumFor_bindIf_congr
    intro tr _ hex
    obtain ⟨p, hpm, hpu⟩ := hex
    have hto : tr.toId = some u := hpu ▸ transferToRow_fst tr p hpm
    rw [hto]
    show (decide (tr.id ≤ tfMax db) && f u) = decide (tr.id ≤ tfMax db)
    rw [hf, Bool.and_true]
  unfold refreshDeltas
  simp only [sumFor_append]
  rw [hp, hr, htf, htt]
  unfold txDeltaSumUpTo tfDeltaSumUpTo
  simp only [sumFor_append]
  ring

/-- The pending union restricted to a filter that admits `u` attributes to `u`
exactly its transaction deltas past its transaction checkpoint plus its
transfer deltas past its transfer checkpoint. -/
lemma pending_sum_eq (db : DBState) (f : Nat → Bool) (u : Nat) (hf : f u = true) :
    sumFor (pendingDeltas db f) u
      = txDeltaSumAfter db u (chkTx db u) + tfDeltaSumAfter db u (chkTf db u) := by
  have hp : sumFor (pendingPayerDeltas db f) u
      = sumFor (bindIf db.transactions (fun t => decide (chkTx db u < t.id))
          (payerRowsFor db)) u := by
    apply sumFor_bindIf_congr
    intro t _ hex
    obtain ⟨p, hpm, hpu⟩ := hex
    have hfrom : t.fromId = u := (payerRowsFor_fst db t p hpm).symm.trans hpu
    rw [hfrom, hf, Bool.and_true]
  have hr : sumFor (pendingRecipientDeltas db f) u
      = sumFor (bindIf db.subTransactions
          (fun st => decide (chkTx db u < st.transactionId)) (recipientRowsFor db)) u := by
    apply sumFor_bindIf_congr
    intro st _ hex
    obtain ⟨p, hpm, hpu⟩ := hex
    have hto : st.toId = u := (recipientRowsFor_fst db st p hpm).symm.trans hpu
    rw [hto, hf, Bool.and_true]
  have htf : sumFor (pendingTransferFromDeltas db f) u
      = sumFor (bindIf db.transfers (fun tr => decide (chkTf db u < tr.id))
          transferFromRow) u := by
    apply sumFor_bindIf_congr
    intro tr _ hex
    obtain ⟨p, hpm, hpu⟩ := hex
    have hfrom : tr.fromId = some u := hpu ▸ transferFromRow_fst tr p hpm
    rw [hfrom]
    show (decide (chkTf db u < tr.id) && f u) = decide (chkTf db u < tr.id)
    rw [hf, Bool.and_true]
  have htt : sumFor (pendingTransferToDeltas db f) u
      = sumFor (bindIf db.transfers (fun tr => decide (chkTf db u < tr.id))
          transferToRow) u := by
    apply sumFor_bindIf_congr
    intro tr _ hex
    obtain ⟨p, hpm, hpu⟩ := hex
    have hto : tr.toId = some u := hpu ▸ transferToRow_fst tr p hpm
    rw [hto]
    show (decide (chkTf db u < tr.id) && f u) = decide (chkTf db u < tr.id)
    rw [hf, Bool.and_true]
  unfold pendingDeltas
  simp only [sumFor_append]
  rw [hp, hr, htf, htt]
  unfold txDeltaSumAfter tfDeltaSumAfter
  simp only [sumFor_append]
  ring

/-- When all transaction-side ledger ids are ≥ 1, the deltas up to checkpoint
`m` and the deltas after `m` together are exactly the deltas after 0. -/
lemma txSum_split (db : DBState) (u : Nat) (m : Nat)
    (h1 : ∀ t ∈ db.transactions, 1 ≤ t.id)
    (h2 : ∀ st ∈ db.subTransactions, 1 ≤ st.transactionId) :
    txDeltaSumUpTo db u m + txDeltaSumAfter db u m = txDeltaSumAfter db u 0 := by
  unfold txDeltaSumUpTo txDeltaSumAfter
  simp only [sumFor_append]
  have hp := sumFor_bindIf_add db.transactions (payerRowsFor db)
    (fun t => decide (0 < t.id)) (fun t => decide (t.id ≤ m)) (fun t => decide (m < t.id)) u
    (fun t ht => by
      show decide (0 < t.id) = (decide (t.id ≤ m) || decide (m < t.id))
      rcases le_or_lt t.id m with hle | hlt
      · rw [decide_eq_true (show 0 < t.id from h1 t ht), decide_eq_true hle, Bool.true_or]
      · rw [decide_eq_true (show 0 < t.id from h1 t ht), decide_eq_true hlt, Bool.or_true])
    (fun t _ => by
      rintro ⟨ha, hb⟩
      simp only [decide_eq_true_eq] at ha hb
      omega)
  have hr := sumFor_bindIf_add db.subTransactions (recipientRowsFor db)
    (fun st => decide (0 < st.transactionId)) (fun st => decide (st.transactionId ≤ m))
    (fun st => decide (m < st.transactionId)) u
    (fun st hst => by
      show decide (0 < st.transactionId)
        = (decide (st.transactionId ≤ m) || decide (m < st.transactionId))
      rcases le_or_lt st.transactionId m with hle | hlt
      · rw [decide_eq_true (show 0 < st.transactionId from h2 st hst),
          decide_eq_true hle, Bool.true_or]
      · rw [decide_eq_true (show 0 < st.transactionId from h2 st hst),
          decide_eq_true hlt, Bool.or_true])
    (fun st _ => by
      rintro ⟨ha, hb⟩
      simp only [decide_eq_true_eq] at ha hb
      omega)
  linarith [hp, hr]

/-- Transfer-side analogue of `txSum_split`. -/
lemma tfSum_split (db : DBState) (u : Nat) (m : Nat)
    (h3 : ∀ tr ∈ db.transfers, 1 ≤ tr.id) :
    tfDeltaSumUpTo db u m + tfDeltaSumAfter db u m = tfDeltaSumAfter db u 0 := by
  unfold tfDeltaSumUpTo tfDeltaSumAfter
  simp only [sumFor_append]
  have hf := sumFor_bindIf_add db.transfers transferFromRow
    (fun tr => decide (0 < tr.id)) (fun tr => decide (tr.id ≤ m)) (fun tr => decide (m < tr.id)) u
    (fun tr htr => by
      show decide (0 < tr.id) = (decide (tr.id ≤ m) || decide (m < tr.id))
      rcases le_or_lt tr.id m with hle | hlt
      · rw [decide_eq_true (show 0 < tr.id from h3 tr htr), decide_eq_true hle, Bool.true_or]
      · rw [decide_eq_true (show 0 < tr.id from h3 tr htr), decide_eq_true hlt, Bool.or_true])
    (fun tr _ => by
      rintro ⟨ha, hb⟩
      simp only [decide_eq_true_eq] at ha hb
      omega)
  have ht := sumFor_bindIf_add db.transfers transferToRow
    (fun tr => decide (0 < tr.id)) (fun tr => decide (tr.id ≤ m)) (fun tr => decide (m < tr.id)) u
    (fun tr htr => by
      show decide (0 < tr.id) = (decide (tr.id ≤ m) || decide (m < tr.id))
      rcases le_or_lt tr.id m with hle | hlt
      · rw [decide_eq_true (show 0 < tr.id from h3 tr htr), decide_eq_true hle, Bool.true_or]
      · rw [decide_eq_true (show 0 < tr.id from h3 tr htr), decide_eq_true hlt, Bool.or_true])
    (fun tr _ => by
      rintro ⟨ha, hb⟩
      simp only [decide_eq_true_eq] at ha hb
      omega)
  linarith [hf, ht]

lemma chkTx_some {db : DBState} {u : Nat} {b : BalanceEntry}
    (hb : db.balance u = some b) : chkTx db u = b.lastTransaction := by
  unfold chkTx
  rw [hb]

lemma chkTx_none {db : DBState} {u : Nat} (hb : db.balance u = none) :
    chkTx db u = 0 := by
  unfold chkTx
  rw [hb]

lemma chkTf_some {db : DBState} {u : Nat} {b : BalanceEntry}
    (hb : db.balance u = some b) : chkTf db u = b.lastTransfer := by
  unfold chkTf
  rw [hb]

lemma chkTf_none {db : DBState} {u : Nat} (hb : db.balance u = none) :
    chkTf db u = 0 := by
  unfold chkTf
  rw [hb]

lemma cachedAmount_some {db : DBState} {u : Nat} {b : BalanceEntry}
    (hb : db.balance u = some b) : cachedAmount db u = b.amount := by
  unfold cachedAmount
  rw [hb]

lemma cachedAmount_none {db : DBState} {u : Nat} (hb : db.balance u = none) :
    cachedAmount db u = 0 := by
  unfold cachedAmount
  rw [hb]

lemma updateBalances_balance (db : DBState) (ids : Option (List Nat)) (u : Nat) :
    (updateBalances db ids).balance u
      = if decide (u ∈ (refreshDeltas db (filt ids)).map Prod.fst) then
          some ⟨sumFor (refreshDeltas db (filt ids)) u, txMax db, tfMax db⟩
        else db.balance u := rfl

lemma head_filter_map (l : List Nat) (u : Nat) (g : Nat → BalanceResponse) (hu : u ∈ l) :
    ((l.filter fun x => filt (some [u]) x).map g).head? = some (g u) := by
  induction l with
  | nil => cases hu
  | cons a t ih =>
    rw [List.filter_cons]
    by_cases ha : a = u
    · subst ha
      rw [if_pos (by simp [filt])]
      rfl
    · rw [if_neg (by simp [filt, ha])]
      refine ih ?_
      rcases List.mem_cons.mp hu with h | h
      · exact absurd h.symm ha
      · exact h

/-- For an existing user the single-user read returns the row that the
`getBalances` query computes for it. -/
lemma getBalance_ok (db : DBState) (u : Nat) (hu : u ∈ db.users) :
    getBalance db u = Except.ok (respFor db (some [u]) u) := by
  have hh : (getBalancesRows db (some [u])).head? = some (respFor db (some [u]) u) :=
    head_filter_map db.users u (respFor db (some [u])) hu
  have hne : (getBalancesRows db (some [u])).isEmpty = false := by
    cases hrows : getBalancesRows db (some [u]) with
    | nil => rw [hrows] at hh; cases hh
    | cons b bs => rfl
  have hgb : getBalances db (some [u]) = Except.ok (getBalancesRows db (some [u])) := by
    unfold getBalances
    rw [if_neg (by rw [hne]; exact Bool.false_ne_true)]
  unfold getBalance
  rw [hgb]
  show (match (getBalancesRows db (some [u])).head? with
        | some r => Except.ok r
        | none => Except.error "undefined") = _
  rw [hh]

/-- For a user id absent from the `user` table the read path produces an empty
result set and therefore throws. -/
lemma getBalance_err (db : DBState) (u : Nat) (hu : u ∉ db.users) :
    getBalance db u
      = Except.error "TypeError: Cannot read property amount of undefined" := by
  have hrows : getBalancesRows db (some [u]) = [] := by
    unfold getBalancesRows
    rw [List.filter_eq_nil_iff.mpr, List.map_nil]
    intro a ha
    simp only [filt, decide_eq_true_eq, List.mem_singleton]
    rintro rfl
    exact hu ha
  have hgb : getBalances db (some [u])
      = Except.error "TypeError: Cannot read property amount of undefined" := by
    unfold getBalances
    rw [hrows]
    rfl
  unfold getBalance
  rw [hgb]
  rfl

/-- Complete characterization of the payer deltas (unrestricted filter). -/
lemma mem_payerDeltas_iff (db : DBState) (tmax : Nat) (s : Nat) (v : Int) :
    (s, v) ∈ payerDeltas db tmax (fun _ => true)
      ↔ ∃ t ∈ db.transactions, ∃ st ∈ db.subTransactions,
          ∃ r ∈ db.subTransactionRows, ∃ pr ∈ db.productRevisions,
          st.transactionId = t.id ∧ r.subTransactionId = st.id
          ∧ pr.revision = r.productRevision ∧ pr.productId = r.productProduct
          ∧ t.id ≤ tmax ∧ s = t.fromId ∧ v = -(r.amount * pr.priceInclVat) := by
  unfold payerDeltas
  rw [mem_bindIf]
  constructor
  · rintro ⟨t, ht, hc, hp⟩
    have hle : t.id ≤ tmax := by
      simp only [Bool.and_eq_true, decide_eq_true_eq] at hc
      exact hc.1
    unfold payerRowsFor at hp
    rw [List.mem_flatMap] at hp
    obtain ⟨st, hstm, hp⟩ := hp
    rw [List.mem_filter] at hstm
    obtain ⟨hstm, hsteq⟩ := hstm
    rw [List.mem_flatMap] at hp
    obtain ⟨r, hrm, hp⟩ := hp
    rw [List.mem_filter] at hrm
    obtain ⟨hrm, hreq⟩ := hrm
    rw [List.mem_map] at hp
    obtain ⟨pr, hprm, hpeq⟩ := hp
    rw [List.mem_filter] at hprm
    obtain ⟨hprm, hpreq⟩ := hprm
    rw [Bool.and_eq_true] at hpreq
    obtain ⟨hpr1, hpr2⟩ := hpreq
    injection hpeq with hfst hsnd
    exact ⟨t, ht, st, hstm, r, hrm, pr, hprm, eq_of_beq hsteq, eq_of_beq hreq,
      eq_of_beq hpr1, eq_of_beq hpr2, hle, hfst.symm, hsnd.symm⟩
  · rintro ⟨t, ht, st, hst, r, hr, pr, hpr, h1, h2, h3, h4, h5, rfl, rfl⟩
    refine ⟨t, ht, ?_, ?_⟩
    · show (decide (t.id ≤ tmax) && true) = true
      rw [Bool.and_true]
      exact decide_eq_true h5
    · unfold payerRowsFor
      rw [List.mem_flatMap]
      refine ⟨st, List.mem_filter.mpr ⟨hst, beq_iff_eq.mpr h1⟩, ?_⟩
      rw [List.mem_flatMap]
      refine ⟨r, List.mem_filter.mpr ⟨hr, beq_iff_eq.mpr h2⟩, ?_⟩
      rw [List.mem_map]
      refine ⟨pr, List.mem_filter.mpr ⟨hpr, ?_⟩, rfl⟩
      rw [Bool.and_eq_true]
      exact ⟨beq_iff_eq.mpr h3, beq_iff_eq.mpr h4⟩

/-- Complete characterization of the recipient deltas (unrestricted filter). -/
lemma mem_recipientDeltas_iff (db : DBState) (tmax : Nat) (s : Nat) (v : Int) :
    (s, v) ∈ recipientDeltas db tmax (fun _ => true)
      ↔ ∃ st ∈ db.subTransactions, ∃ r ∈ db.subTransactionRows,
          ∃ pr ∈ db.productRevisions,
          r.subTransactionId = st.id
          ∧ pr.revision = r.productRevision ∧ pr.productId = r.productProduct
          ∧ st.transactionId ≤ tmax ∧ s = st.toId ∧ v = r.amount * pr.priceInclVat := by
  unfold recipientDeltas
  rw [mem_bindIf]
  constructor
  · rintro ⟨st, hst, hc, hp⟩
    have hle : st.transactionId ≤ tmax := by
      simp only [Bool.and_eq_true, decide_eq_true_eq] at hc
      exact hc.1
    unfold recipientRowsFor at hp
    rw [List.mem_flatMap] at hp
    obtain ⟨r, hrm, hp⟩ := hp
    rw [List.mem_filter] at hrm
    obtain ⟨hrm, hreq⟩ := hrm
    rw [List.mem_map] at hp
    obtain ⟨pr, hprm, hpeq⟩ := hp
    rw [List.mem_filter] at hprm
    obtain ⟨hprm, hpreq⟩ := hprm
    rw [Bool.and_eq_true] at hpreq
    obtain ⟨hpr1, hpr2⟩ := hpreq
    injection hpeq with hfst hsnd
    exact ⟨st, hst, r, hrm, pr, hprm, eq_of_beq hreq,
      eq_of_beq hpr1, eq_of_beq hpr2, hle, hfst.symm, hsnd.symm⟩
  · rintro ⟨st, hst, r, hr, pr, hpr, h2, h3, h4, h5, rfl, rfl⟩
    refine ⟨st, hst, ?_, ?_⟩
    · show (decide (st.transactionId ≤ tmax) && true) = true
      rw [Bool.and_true]
      exact decide_eq_true h5
    · unfold recipientRowsFor
      rw [List.mem_flatMap]
      refine ⟨r, List.mem_filter.mpr ⟨hr, beq_iff_eq.mpr h2⟩, ?_⟩
      rw [List.mem_map]
      refine ⟨pr, List.mem_filter.mpr ⟨hpr, ?_⟩, rfl⟩
      rw [Bool.and_eq_true]
      exact ⟨beq_iff_eq.mpr h3, beq_iff_eq.mpr h4⟩

/-- Complete characterization of the transfer source deltas: a delta exists
exactly for a transfer with a present source, and none for an absent one. -/
lemma mem_transferFromDeltas_iff (db : DBState) (fmax : Nat) (s : Nat) (v : Int) :
    (s, v) ∈ transferFromDeltas db fmax (fun _ => true)
      ↔ ∃ tr ∈ db.transfers, tr.id ≤ fmax ∧ tr.fromId = some s ∧ v = -tr.amount := by
  unfold transferFromDeltas
  rw [mem_bindIf]
  constructor
  · rintro ⟨tr, htr, hc, hp⟩
    have hle : tr.id ≤ fmax := by
      simp only [Bool.and_eq_true, decide_eq_true_eq] at hc
      exact hc.1
    have hfrom : tr.fromId = some s := transferFromRow_fst tr (s, v) hp
    refine ⟨tr, htr, hle, hfrom, ?_⟩
    unfold transferFromRow at hp
    rw [hfrom] at hp
    exact congrArg Prod.snd (List.mem_singleton.mp hp)
  · rintro ⟨tr, htr, hle, hfrom, rfl⟩
    refine ⟨tr, htr, ?_, ?_⟩
    · rw [hfrom]
      show (decide (tr.id ≤ fmax) && true) = true
      rw [Bool.and_true]
      exact decide_eq_true hle
    · unfold transferFromRow
      rw [hfrom]
      exact List.mem_singleton.mpr rfl

/-- Complete characterization of the transfer destination deltas. -/
lemma mem_transferToDeltas_iff (db : DBState) (fmax : Nat) (s : Nat) (v : Int) :
    (s, v) ∈ transferToDeltas db fmax (fun _ => true)
      ↔ ∃ tr ∈ db.transfers, tr.id ≤ fmax ∧ tr.toId = some s ∧ v = tr.amount := by
  unfold transferToDeltas
  rw [mem_bindIf]
  constructor
  · rintro ⟨tr, htr, hc, hp⟩
    have hle : tr.id ≤ fmax := by
      simp only [Bool.and_eq_true, decide_eq_true_eq] at hc
      exact hc.1
    have hto : tr.toId = some s := transferToRow_fst tr (s, v) hp
    refine ⟨tr, htr, hle, hto, ?_⟩
    unfold transferToRow at hp
    rw [hto] at hp
    exact congrArg Prod.snd (List.mem_singleton.mp hp)
  · rintro ⟨tr, htr, hle, hto, rfl⟩
    refine ⟨tr, htr, ?_, ?_⟩
    · rw [hto]
      show (decide (tr.id ≤ fmax) && true) = true
      rw [Bool.and_true]
      exact decide_eq_true hle
    · unfold transferToRow
      rw [hto]
      exact List.mem_singleton.mpr rfl

/-- Two states with equal row tables and pointwise-equal balance maps are
equal. -/
lemma DBState.ext_of_balance {x y : DBState} (hu : x.users = y.users)
    (ht : x.transactions = y.transactions) (hs : x.subTransactions = y.subTransactions)
    (hr : x.subTransactionRows = y.subTransactionRows)
    (hp : x.productRevisions = y.productRevisions) (hf : x.transfers = y.transfers)
    (hb : ∀ u, x.balance u = y.balance u) : x = y := by
  cases x
  cases y
  simp only [DBState.mk.injEq]
  exact ⟨hu, ht, hs, hr, hp, hf, funext hb⟩

/-! ### Claims -/

/-- Claim C1: after `updateBalances` runs with no subject filter, every subject
with at least one transaction or transfer delta gets a snapshot row whose
`cachedAmount` equals the exact signed sum of its transaction deltas with
transaction id ≤ `txMax` plus its transfer deltas with transfer id ≤ `tfMax`,
and whose two checkpoint fields equal `txMax` and `tfMax`, the ledger maxima
read before the aggregation scan. -/
theorem updateBalances_unfiltered_row_exact (db : DBState) (u : Nat)
    (hd : u ∈ (refreshDeltas db (filt none)).map Prod.fst) :
    (updateBalances db none).balance u
      = some ⟨txDeltaSumUpTo db u (txMax db) + tfDeltaSumUpTo db u (tfMax db),
          txMax db, tfMax db⟩ := by
  rw [updateBalances_balance, if_pos (decide_eq_true hd),
    refresh_sum_eq db (filt none) u rfl]

/-- Witness for C1: in `dbSale`, payer 1 is written −3·150 − 100 = −550 with
checkpoints (1, 1). -/
theorem updateBalances_unfiltered_row_exact_witness :
    (updateBalances dbSale none).balance 1 = some ⟨-550, 1, 1⟩ :=
  (updateBalances_unfiltered_row_exact dbSale 1 (by decide)).trans (by decide)

/-- Claim C2: for every subject present in the user table, `getBalance`
returns the snapshot's `cachedAmount` (0 when no row exists) plus its
transaction deltas with id strictly above `lastTransaction` and transfer
deltas with id strictly above `lastTransfer` (both checkpoints 0 when no
snapshot exists); in particular the call succeeds. -/
theorem getBalance_snapshot_plus_pending (db : DBState) (u : Nat)
    (hu : u ∈ db.users) :
    getBalance db u = Except.ok
      { id := u
        amount := cachedAmount db u
          + (txDeltaSumAfter db u (chkTx db u) + tfDeltaSumAfter db u (chkTf db u))
        lastTransactionId := (db.balance u).map BalanceEntry.lastTransaction
        lastTransferId := (db.balance u).map BalanceEntry.lastTransfer } := by
  rw [getBalance_ok db u hu]
  unfold respFor
  rw [pending_sum_eq db (filt (some [u])) u (by simp [filt]),
    Int.add_comm (txDeltaSumAfter db u (chkTx db u) + tfDeltaSumAfter db u (chkTf db u))
      (cachedAmount db u)]

/-- Witness for C2: a subject with no ledger history and no snapshot reads
balance 0 without an error. -/
theorem getBalance_snapshot_plus_pending_witness :
    getBalance dbEmptyUser 7 = Except.ok ⟨7, 0, none, none⟩ :=
  (getBalance_snapshot_plus_pending dbEmptyUser 7 (by decide)).trans
    (congrArg Except.ok (by decide))

/-- Claim C3: delta derivation is sign-correct — a payer is attributed
−(quantity × locked unit price) per joined sub-transaction row, a recipient
+(quantity × locked unit price), the unit price coming from the referenced
product revision; a transfer's present source is attributed −amount and its
present destination +amount, and an absent side yields no delta. -/
theorem delta_derivation_sign_correct (db : DBState) (tmax fmax : Nat)
    (s : Nat) (v : Int) :
    ((s, v) ∈ payerDeltas db tmax (fun _ => true)
      ↔ ∃ t ∈ db.transactions, ∃ st ∈ db.subTransactions,
          ∃ r ∈ db.subTransactionRows, ∃ pr ∈ db.productRevisions,
          st.transactionId = t.id ∧ r.subTransactionId = st.id
          ∧ pr.revision = r.productRevision ∧ pr.productId = r.productProduct
          ∧ t.id ≤ tmax ∧ s = t.fromId ∧ v = -(r.amount * pr.priceInclVat))
    ∧ ((s, v) ∈ recipientDeltas db tmax (fun _ => true)
      ↔ ∃ st ∈ db.subTransactions, ∃ r ∈ db.subTransactionRows,
          ∃ pr ∈ db.productRevisions,
          r.subTransactionId = st.id
          ∧ pr.revision = r.productRevision ∧ pr.productId = r.productProduct
          ∧ st.transactionId ≤ tmax ∧ s = st.toId ∧ v = r.amount * pr.priceInclVat)
    ∧ ((s, v) ∈ transferFromDeltas db fmax (fun _ => true)
      ↔ ∃ tr ∈ db.transfers, tr.id ≤ fmax ∧ tr.fromId = some s ∧ v = -tr.amount)
    ∧ ((s, v) ∈ transferToDeltas db fmax (fun _ => true)
      ↔ ∃ tr ∈ db.transfers, tr.id ≤ fmax ∧ tr.toId = some s ∧ v = tr.amount) :=
  ⟨mem_payerDeltas_iff db tmax s v, mem_recipientDeltas_iff db tmax s v,
    mem_transferFromDeltas_iff db fmax s v, mem_transferToDeltas_iff db fmax s v⟩

/-- Claim C4: refresh is idempotent — for any fixed ledger state, running
`updateBalances` twice with the same (or no) subject filter leaves the store
identical to running it once, because each write is a whole-row replacement
computed from the ledgers alone. -/
theorem updateBalances_idempotent (db : DBState) (ids : Option (List Nat)) :
    updateBalances (updateBalances db ids) ids = updateBalances db ids := by
  refine DBState.ext_of_balance rfl rfl rfl rfl rfl rfl fun u => ?_
  show (if decide (u ∈ (refreshDeltas db (filt ids)).map Prod.fst) then
      some ⟨sumFor (refreshDeltas db (filt ids)) u, txMax db, tfMax db⟩
    else (updateBalances db ids).balance u) = (updateBalances db ids).balance u
  by_cases hc : decide (u ∈ (refreshDeltas db (filt ids)).map Prod.fst) = true
  · rw [if_pos hc, updateBalances_balance db ids u, if_pos hc]
  · rw [if_neg hc]

/-- Claim C5: cache transparency — deleting a subject's snapshot row does not
change the amount a subsequent balance read returns for it, provided the
ledger ids are well-formed and every existing snapshot row satisfies the
boundary invariant I2 (which holds for refresh-written rows). -/
theorem getBalance_cache_transparent (db : DBState) (u : Nat)
    (hwf : wfLedgerIds db) (hcv : cacheValid db) :
    (getBalance db u).map BalanceResponse.amount
      = (getBalance (clearBalanceCache db (some [u])) u).map BalanceResponse.amount := by
  obtain ⟨hwt, hws, hwtr⟩ := hwf
  by_cases hu : u ∈ db.users
  · have hu2 : u ∈ (clearBalanceCache db (some [u])).users := hu
    rw [getBalance_ok db u hu, getBalance_ok _ u hu2]
    show Except.ok ((respFor db (some [u]) u).amount)
      = Except.ok ((respFor (clearBalanceCache db (some [u])) (some [u]) u).amount)
    refine congrArg Except.ok ?_
    show sumFor (pendingDeltas db (filt (some [u]))) u + cachedAmount db u
      = sumFor (pendingDeltas (clearBalanceCache db (some [u])) (filt (some [u]))) u
        + cachedAmount (clearBalanceCache db (some [u])) u
    rw [pending_sum_eq db (filt (some [u])) u (by simp [filt]),
      pending_sum_eq (clearBalanceCache db (some [u])) (filt (some [u])) u (by simp [filt])]
    have hby : (clearBalanceCache db (some [u])).balance u = none := by
      show (if decide (u ∈ [u]) then none else db.balance u) = none
      rw [if_pos (by simp)]
    rw [chkTx_none hby, chkTf_none hby, cachedAmount_none hby, Int.add_zero]
    have eTx : txDeltaSumAfter (clearBalanceCache db (some [u])) u 0
        = txDeltaSumAfter db u 0 := rfl
    have eTf : tfDeltaSumAfter (clearBalanceCache db (some [u])) u 0
        = tfDeltaSumAfter db u 0 := rfl
    rw [eTx, eTf]
    cases hb : db.balance u with
    | none => rw [chkTx_none hb, chkTf_none hb, cachedAmount_none hb, Int.add_zero]
    | some b =>
      rw [chkTx_some hb, chkTf_some hb, cachedAmount_some hb, hcv u b hb]
      have hTx := txSum_split db u b.lastTransaction hwt hws
      have hTf := tfSum_split db u b.lastTransfer hwtr
      linarith
  · have hu2 : u ∉ (clearBalanceCache db (some [u])).users := hu
    rw [getBalance_err db u hu, getBalance_err _ u hu2]

/-- Witness for C5: in `dbCacheW` (a valid cached row ⟨550, 1, 1⟩ for user 1)
the read before and after invalidating user 1 yields the same amount. -/
theorem getBalance_cache_transparent_witness :
    (getBalance dbCacheW 1).map BalanceResponse.amount
      = (getBalance (clearBalanceCache dbCacheW (some [1])) 1).map
          BalanceResponse.amount :=
  getBalance_cache_transparent dbCacheW 1 (by unfold wfLedgerIds; decide)
    (by
      intro u b hb
      by_cases hu : u = 1
      · subst hu
        have h1 : dbCacheW.balance 1 = some ⟨550, 1, 1⟩ := rfl
        obtain rfl : b = ⟨550, 1, 1⟩ := Option.some.inj (hb.symm.trans h1)
        decide
      · have h0 : dbCacheW.balance u = none := by
          show (if u = 1 then some (⟨550, 1, 1⟩ : BalanceEntry) else none) = none
          rw [if_neg hu]
        rw [h0] at hb
        cases hb)

/-- Claim C6: checkpoint monotonicity — if the ledgers only grow (their maxima
never decrease), a row written by a later refresh carries checkpoints ≥ those
of a row written by an earlier refresh for the same subject, strictly larger
exactly when the corresponding ledger got new rows with larger ids. -/
theorem updateBalances_checkpoint_monotone (dbA dbB : DBState)
    (idsA idsB : Option (List Nat)) (u : Nat) (eA eB : BalanceEntry)
    (hT : txMax dbA ≤ txMax dbB) (hF : tfMax dbA ≤ tfMax dbB)
    (hA : u ∈ (refreshDeltas dbA (filt idsA)).map Prod.fst)
    (hB : u ∈ (refreshDeltas dbB (filt idsB)).map Prod.fst)
    (heA : (updateBalances dbA idsA).balance u = some eA)
    (heB : (updateBalances dbB idsB).balance u = some eB) :
    (eA.lastTransaction ≤ eB.lastTransaction ∧ eA.lastTransfer ≤ eB.lastTransfer)
    ∧ (txMax dbA < txMax dbB → eA.lastTransaction < eB.lastTransaction)
    ∧ (txMax dbA = txMax dbB → eA.lastTransaction = eB.lastTransaction)
    ∧ (tfMax dbA < tfMax dbB → eA.lastTransfer < eB.lastTransfer)
    ∧ (tfMax dbA = tfMax dbB → eA.lastTransfer = eB.lastTransfer) := by
  rw [updateBalances_balance, if_pos (decide_eq_true hA)] at heA
  rw [updateBalances_balance, if_pos (decide_eq_true hB)] at heB
  obtain rfl : eA = ⟨sumFor (refreshDeltas dbA (filt idsA)) u, txMax dbA, tfMax dbA⟩ :=
    (Option.some.inj heA).symm
  obtain rfl : eB = ⟨sumFor (refreshDeltas dbB (filt idsB)) u, txMax dbB, tfMax dbB⟩ :=
    (Option.some.inj heB).symm
  exact ⟨⟨hT, hF⟩, fun h => h, fun h => h, fun h => h, fun h => h⟩

/-- Witness for C6: refreshing `dbTwoA` writes ⟨−5, 0, 1⟩ for user 1 and, after
a new transfer appears (`dbTwoB`), ⟨−12, 0, 2⟩; the transfer checkpoint grows. -/
theorem updateBalances_checkpoint_monotone_witness :
    (⟨-5, 0, 1⟩ : BalanceEntry).lastTransfer ≤ (⟨-12, 0, 2⟩ : BalanceEntry).lastTransfer :=
  ((updateBalances_checkpoint_monotone dbTwoA dbTwoB none none 1
      ⟨-5, 0, 1⟩ ⟨-12, 0, 2⟩ (by decide) (by decide) (by decide) (by decide)
      (by decide) (by decide)).1).2

/-- Claim C7, counterexample: `updateBalances` with the explicit subject set
{5} on a state where user 5 has no ledger deltas writes no snapshot row for 5
(the claim asserts one is written with `cachedAmount` 0). -/
theorem updateBalances_requested_no_delta_no_row :
    (updateBalances dbReq (some [5])).balance 5 = none := by decide

/-- Claim C7 (amended): with an explicit subject set, a snapshot row with the
exact aggregate and checkpoints `txMax`/`tfMax` is written for every requested
subject that has at least one ledger delta (even a zero aggregate of canceling
deltas); a requested subject with no deltas gets no row — its previous row, if
any, is left unchanged. -/
theorem updateBalances_filtered_row (db : DBState) (ids : List Nat) (u : Nat)
    (hu : u ∈ ids) :
    (u ∈ (refreshDeltas db (filt (some ids))).map Prod.fst →
      (updateBalances db (some ids)).balance u
        = some ⟨txDeltaSumUpTo db u (txMax db) + tfDeltaSumUpTo db u (tfMax db),
            txMax db, tfMax db⟩)
    ∧ (u ∉ (refreshDeltas db (filt (some ids))).map Prod.fst →
      (updateBalances db (some ids)).balance u = db.balance u) := by
  constructor
  · intro hd
    rw [updateBalances_balance, if_pos (decide_eq_true hd),
      refresh_sum_eq db (filt (some ids)) u (by simp [filt, hu])]
  · intro hd
    rw [updateBalances_balance, if_neg (by simp only [decide_eq_true_eq]; exact hd)]

/-- Witness for C7 (amended): requesting {3, 9} on `dbReqW` writes ⟨500, 0, 1⟩
for user 3 (one delta) and nothing for user 9 (no deltas). -/
theorem updateBalances_filtered_row_witness :
    (updateBalances dbReqW (some [3, 9])).balance 3 = some ⟨500, 0, 1⟩
    ∧ (updateBalances dbReqW (some [3, 9])).balance 9 = dbReqW.balance 9 :=
  ⟨((updateBalances_filtered_row dbReqW [3, 9] 3 (by decide)).1 (by decide)).trans
      (by decide),
    (updateBalances_filtered_row dbReqW [3, 9] 9 (by decide)).2 (by decide)⟩

/-- Claim C8: `getBalances` with an empty subject set produces an empty result
set, and the guard `balances.length === 0 && balances[0].amount === undefined`
then dereferences `balances[0]`, so the call throws instead of returning an
empty mapping. -/
theorem getBalances_empty_ids_error (db : DBState) :
    getBalances db (some [])
      = Except.error "TypeError: Cannot read property amount of undefined" := by
  have hrows : getBalancesRows db (some []) = [] := by
    unfold getBalancesRows
    rw [List.filter_eq_nil_iff.mpr, List.map_nil]
    intro a _
    simp [filt]
  unfold getBalances
  rw [hrows]
  rfl

/-- Claim C10: for a subject id absent from the user table, a successful
`getBalances` never returns an entry for it, and the single-subject
`getBalance` fails instead of returning the implicit zero balance. -/
theorem getBalances_unknown_subject (db : DBState) (u : Nat) (hu : u ∉ db.users) :
    (∀ ids l, getBalances db ids = Except.ok l → ∀ r ∈ l, r.id ≠ u)
    ∧ getBalance db u
      = Except.error "TypeError: Cannot read property amount of undefined" := by
  constructor
  · intro ids l hok r hr
    have hl : l = getBalancesRows db ids := by
      unfold getBalances at hok
      by_cases he : (getBalancesRows db ids).isEmpty = true
      · rw [if_pos he] at hok
        cases hok
      · rw [if_neg he] at hok
        injection hok with h
        exact h.symm
    subst hl
    unfold getBalancesRows at hr
    rw [List.mem_map] at hr
    obtain ⟨x, hx, hxr⟩ := hr
    rw [List.mem_filter] at hx
    rw [← hxr]
    show x ≠ u
    rintro rfl
    exact hu hx.1
  · exact getBalance_err db u hu

/-- Witness for C10: in `dbOneUser` (only user 1), subject 2 never appears in
a result and `getBalance 2` fails. -/
theorem getBalances_unknown_subject_witness :
    (∀ ids l, getBalances dbOneUser ids = Except.ok l → ∀ r ∈ l, r.id ≠ 2)
    ∧ getBalance dbOneUser 2
      = Except.error "TypeError: Cannot read property amount of undefined" :=
  getBalances_unknown_subject dbOneUser 2 (by decide)

end SudoSOS
